import Mathlib

/-!
Verification development for the request-execution engine of the `ureq` HTTP
client (file `src/agent.rs`, `Agent::do_run`).

The engine itself (the event loop of `do_run`, its per-event side effects and
its post-loop status handling) is embedded faithfully from `src/agent.rs`.
The collaborators whose code is not part of this repository excerpt — the
protocol state machine ("Unit", crate module `unit`), the `Connection` /
`ConnectionPool` (module `pool`), the `Resolver`, the cookie jar, and the
small helpers `has_send_body_mode` / `ensure_full_url` (module `util`) — are
modelled from the specification as scripted oracles: each external call
consumes the next entry of an explicit script, so every run of the engine is
a computable function of the scripts.
-/

namespace Ureq

/-- Modelled from the spec: URI scheme as used by the https-only check
(`http::uri::Scheme`); the engine only compares against `HTTPS`. -/
inductive Scheme
| HTTPS
| HTTP
| other (s : String)
deriving DecidableEq, Repr

/-- Modelled from the spec: the parts of `http::Uri` the engine consumes:
its scheme (absent for relative URIs), whether it is a full (absolute) URI
(`ensure_full_url`), and its string form (used in error payloads). -/
structure Uri where
  scheme : Option Scheme
  full : Bool
  s : String
deriving DecidableEq, Repr

/-- Modelled from the spec: body framing (`hoot::BodyMode`): absent,
fixed-length, chunked, or delimited by connection close. -/
inductive BodyMode
| NoBody
| LengthDelimited (n : Nat)
| Chunked
| CloseDelimited
deriving DecidableEq, Repr

/-- The error taxonomy of `crate::Error` restricted to the variants the
engine produces or inspects (agent.rs lines 164, 174, 265, 317). Variants
whose payloads are opaque to the engine carry a `Nat` tag. `panicked` models
a Rust panic (an `.expect` firing). -/
inductive Error
| AgentRequireHttpsOnly (uri : String)
| CookieValue (msg : String)
| BadUri (uri : String)
| Timeout (reason : Nat)
| StatusCode (code : Nat)
| Io (tag : Nat)
deriving DecidableEq, Repr

/-- The `Input` variants fed into the protocol state machine
(`crate::unit::Input`), as listed in the spec data model. -/
inductive Input
| Begin
| Prepared
| Resolved
| ConnectionOpen
| Data (bytes : List Nat)
| Header (name : String) (value : String)
| EndAwait100
deriving DecidableEq, Repr

/-- Parsed response head: status code and headers (the parts of
`http::Response<()>` the engine reads). -/
structure RespHead where
  status : Nat
  headers : List (String × String)
deriving DecidableEq, Repr

/-- The `Event` variants emitted by the protocol state machine
(`crate::unit::Event`), as matched by the loop in `Agent::do_run`. -/
inductive Event
| Reset (must_close : Bool)
| Prepare (uri : Uri)
| Resolve (uri : Uri) (timeout : Nat)
| OpenConnection (uri : Uri) (timeout : Nat)
| Await100 (timeout : Nat)
| Transmit (amount : Nat) (timeout : Nat)
| AwaitInput (timeout : Nat)
| Response (response : RespHead) (end_ : Bool)
| ResponseBody
deriving DecidableEq, Repr

/-- Modelled from the spec: one scripted outcome of `Connection::await_input`
— either newly received bytes appended to the read buffer, or an error
(`Error::Timeout` is reported distinctly from hard I/O failures). -/
inductive AwaitStep
| bytes (bs : List Nat)
| fail (e : Error)
deriving DecidableEq, Repr

/-- Modelled from the spec: a `Connection` owned by the in-flight request:
scripted `await_input` outcomes, scripted `transmit_output` outcomes
(`none` = success), and the current content of its read buffer
(`buffers().input()`); `consume_input n` drops `n` bytes from its front. -/
structure Connection where
  awaitScript : List AwaitStep
  transmitScript : List (Option Error)
  inputBuf : List Nat
deriving DecidableEq, Repr

/-- Modelled from the spec: one scripted outcome of `ConnectionPool::connect`:
a reused-or-fresh `Connection`, or a connection error surfaced immediately. -/
inductive PoolStep
| conn (c : Connection)
| fail (e : Error)
deriving DecidableEq, Repr

/-- Modelled from the spec: outcome of `Resolver::resolve(uri, timeout)`:
a network address (abstracted to `Nat`) or a resolution/timeout error. -/
inductive ResolveRes
| addr (a : Nat)
| fail (e : Error)
deriving DecidableEq, Repr

/-- Modelled from the spec: the protocol state machine ("Unit").  Its code is
not part of this excerpt, so it is modelled as: the log of inputs fed to it
(most recent first), a script of how many bytes it reports consumed for each
`Data` input (`handle_input`'s return value), and a script of `body_mode()`
answers queried at each `Response` event. -/
structure Unit where
  fed : List Input
  dataUsed : List Nat
  bodyModes : List (Option BodyMode)
deriving DecidableEq, Repr

/-- Modelled from the spec: `Unit::handle_input` — records the input and, for
a `Data` input, reports how many input bytes the state machine consumed
(next entry of the `dataUsed` script). -/
def Unit.handleInput (u : Unit) (i : Input) : Unit × Nat :=
  match i with
  | Input.Data _ => ({ u with fed := i :: u.fed, dataUsed := u.dataUsed.tail }, u.dataUsed.headD 0)
  | _ => ({ u with fed := i :: u.fed }, 0)

/-- Modelled from the spec: `Unit::release_body` converts the state machine
into its residual body-reading state, handed to the `Body`. -/
def Unit.release_body (u : Unit) : Unit := u

/-- The fields of `AgentConfig` consumed by `Agent::do_run`. -/
structure AgentConfig where
  https_only : Bool
  http_status_as_error : Bool
  user_agent : String
deriving DecidableEq, Repr

/-- The `Agent` as seen by `do_run`: its config plus its external
collaborators (resolver, cookie jar, compile-time compression capability),
modelled as functions and flags.  The connection pool's scripted answers
live in the mutable engine state. -/
structure Agent where
  config : AgentConfig
  resolve : Uri → Nat → ResolveRes
  cookiesEnabled : Bool
  getRequestCookies : Uri → String
  acceptEncoding : Option String

/-- Modelled from the spec: validity of an HTTP header value
(`HeaderValue::from_str`): every character is horizontal tab or a visible
byte (≥ 32) other than DEL (127). -/
def isValidHeaderValue (s : String) : Bool :=
  s.toList.all fun c => c == '\t' || (decide (32 ≤ c.toNat) && decide (c.toNat ≠ 127))

/-- Modelled from the spec: `HeaderMapExt::has_send_body_mode` — the request
headers already carry a body-framing header. -/
def has_send_body_mode (hs : List (String × String)) : Bool :=
  hs.any fun h => h.1 == "content-length" || h.1 == "transfer-encoding"

/-- A request head as consumed by `do_run`: its headers (method and URI are
owned by the state machine and never read by the engine itself). -/
structure Request where
  headers : List (String × String)
deriving DecidableEq, Repr

/-- Observable I/O side effects of the engine, recorded most recent first:
resolver calls, pool connects, connection I/O, and returning a connection to
the pool (`reuse`) or discarding it (`close`). -/
inductive Effect
| resolveCall (uri : Uri) (timeout : Nat)
| connectCall (uri : Uri) (timeout : Nat)
| awaitCall (timeout : Nat)
| transmitCall (amount : Nat)
| closeConn
| reuseConn (now : Nat)
deriving DecidableEq, Repr

/-- The mutable state of one `do_run` invocation: the state machine, the
resolved address (`addr`), the held connection, the captured response head,
the negotiated receive body framing, the effect trace, the pool's scripted
`connect` answers, and the current time (`current_time()`), modelled as a
constant per run. -/
structure EngineSt where
  unit : Unit
  addr : Option Nat
  conn : Option Connection
  response : Option RespHead
  recvBodyMode : BodyMode
  trace : List Effect
  pool : List PoolStep
  now : Nat
deriving DecidableEq, Repr

/-- The buffer view handed to `poll_event` each iteration: the connection's
buffers once a connection exists, otherwise the `NoBuffers` placeholder
(agent.rs lines 139-145). -/
inductive Buffers
| connBuffers (input : List Nat)
| noBuffers
deriving DecidableEq, Repr

/-- agent.rs lines 142-145: the buffer is owned by the connection; before an
open connection exists there are no buffers. -/
def buffersOf : Option Connection → Buffers
| some c => Buffers.connBuffers c.inputBuf
| none => Buffers.noBuffers

/-- Final outcome of `do_run`: a successful response, a typed error, a Rust
panic (an `.expect` fired), or `stuck` — a pure model artifact marking an
exhausted oracle script. -/
inductive Outcome
| success (status : Nat) (headers : List (String × String))
    (unitResidual : Unit) (conn : Connection) (infoHeaders : List (String × String))
    (infoBodyMode : BodyMode)
| failure (e : Error)
| panicked (msg : String)
| stuck
deriving DecidableEq, Repr

/-- What one handled event does to the loop: continue, `break`, or abort the
whole call (`return Err` / panic). -/
inductive StepOut
| next
| brk
| halt (o : Outcome)
deriving DecidableEq, Repr

/-- `fn set_header` (agent.rs lines 331-336): feed a `Header` input to the
state machine (the model's `handle_input` is total, so the `.expect` there
cannot fire). -/
def set_header (st : EngineSt) (name : String) (value : String) : EngineSt :=
  { st with unit := (st.unit.handleInput (Input.Header name value)).1 }

/-- Feed an input to the state machine, discarding the consumed-bytes count
(the `unit.handle_input(...)?` calls whose result is unused). -/
def feed (st : EngineSt) (i : Input) : EngineSt :=
  { st with unit := (st.unit.handleInput i).1 }

/-- The tail of the `Prepare` arm after the https-only check and cookie
handling (agent.rs lines 180-219): inject the accept-encoding header when
compression is compiled in, the body-framing header dictated by
`send_body_mode`, and the user-agent header when configured (whose
`HeaderValue::try_from(..).unwrap()` panics on an invalid value), then feed
`Prepared`. -/
def prepareFinish (ag : Agent) (sbm : Option BodyMode) (st1 : EngineSt) : EngineSt × StepOut :=
  let st2 :=
    match ag.acceptEncoding with
    | some a => set_header st1 "accept-encoding" a
    | none => st1
  let st3 :=
    match sbm with
    | some (BodyMode.LengthDelimited n) => set_header st2 "content-length" (Nat.repr n)
    | some BodyMode.Chunked => set_header st2 "transfer-encoding" "chunked"
    | _ => st2
  if ag.config.user_agent = "" then (feed st3 Input.Prepared, StepOut.next)
  else if isValidHeaderValue ag.config.user_agent then
    (feed (set_header st3 "user-agent" ag.config.user_agent) Input.Prepared, StepOut.next)
  else
    (st3, StepOut.halt (Outcome.panicked "user agent header value"))

/-- One arm of the `match unit.poll_event(...)` loop body of `Agent::do_run`
(agent.rs lines 147-307), embedded case by case.  `sbm` is the
`send_body_mode` computed once before the loop (lines 125-129). -/
def step (ag : Agent) (sbm : Option BodyMode) (st : EngineSt) (ev : Event) : EngineSt × StepOut :=
  match ev with
  | Event.Reset must_close =>
    -- lines 148-160
    let st1 := { st with addr := none }
    let st2 :=
      match st1.conn with
      | some _ =>
        if must_close then
          { st1 with conn := none, trace := Effect.closeConn :: st1.trace }
        else
          { st1 with conn := none, trace := Effect.reuseConn st1.now :: st1.trace }
      | none => st1
    (feed st2 Input.Begin, StepOut.next)
  | Event.Prepare uri =>
    -- lines 162-220
    if ag.config.https_only = true ∧ uri.scheme ≠ some Scheme.HTTPS then
      (st, StepOut.halt (Outcome.failure (Error.AgentRequireHttpsOnly uri.s)))
    else
      let cookieRes : Except Error EngineSt :=
        if ag.cookiesEnabled then
          let v := ag.getRequestCookies uri
          if v = "" then Except.ok st
          else if isValidHeaderValue v then Except.ok (set_header st "cookie" v)
          else Except.error (Error.CookieValue "Cookie value is an invalid http-header")
        else Except.ok st
      match cookieRes with
      | Except.error e => (st, StepOut.halt (Outcome.failure e))
      | Except.ok st1 => prepareFinish ag sbm st1
  | Event.Resolve uri timeout =>
    -- lines 222-229
    if uri.full = false then
      (st, StepOut.halt (Outcome.failure (Error.BadUri uri.s)))
    else
      match ag.resolve uri timeout with
      | ResolveRes.fail e =>
        ({ st with trace := Effect.resolveCall uri timeout :: st.trace },
          StepOut.halt (Outcome.failure e))
      | ResolveRes.addr a =>
        (feed { st with addr := some a, trace := Effect.resolveCall uri timeout :: st.trace }
          Input.Resolved, StepOut.next)
  | Event.OpenConnection uri timeout =>
    -- lines 231-252 (logging is observational only and omitted)
    match st.addr with
    | none => (st, StepOut.halt (Outcome.panicked "addr to be available after Event::Resolve"))
    | some _ =>
      match st.pool with
      | [] => (st, StepOut.halt Outcome.stuck)
      | PoolStep.fail e :: rest =>
        ({ st with pool := rest, trace := Effect.connectCall uri timeout :: st.trace },
          StepOut.halt (Outcome.failure e))
      | PoolStep.conn c :: rest =>
        (feed { st with
            pool := rest, conn := some c,
            trace := Effect.connectCall uri timeout :: st.trace } Input.ConnectionOpen,
          StepOut.next)
  | Event.Await100 timeout =>
    -- lines 254-270
    match st.conn with
    | none => (st, StepOut.halt (Outcome.panicked "connection for AwaitInput"))
    | some c =>
      match c.awaitScript with
      | [] => (st, StepOut.halt Outcome.stuck)
      | AwaitStep.bytes bs :: rest =>
        let c1 : Connection := { c with awaitScript := rest, inputBuf := c.inputBuf ++ bs }
        let st1 := { st with conn := some c1, trace := Effect.awaitCall timeout :: st.trace }
        (feed st1 (Input.Data c1.inputBuf), StepOut.next)
      | AwaitStep.fail e :: rest =>
        let st1 := { st with
          conn := some { c with awaitScript := rest },
          trace := Effect.awaitCall timeout :: st.trace }
        match e with
        | Error.Timeout _ => (feed st1 Input.EndAwait100, StepOut.next)
        | _ => (st1, StepOut.halt (Outcome.failure e))
  | Event.Transmit amount _timeout =>
    -- lines 272-275
    match st.conn with
    | none => (st, StepOut.halt (Outcome.panicked "connection for Transmit"))
    | some c =>
      match c.transmitScript with
      | some e :: rest =>
        ({ st with
            conn := some { c with transmitScript := rest },
            trace := Effect.transmitCall amount :: st.trace },
          StepOut.halt (Outcome.failure e))
      | none :: rest =>
        ({ st with
            conn := some { c with transmitScript := rest },
            trace := Effect.transmitCall amount :: st.trace }, StepOut.next)
      | [] =>
        ({ st with trace := Effect.transmitCall amount :: st.trace }, StepOut.next)
  | Event.AwaitInput timeout =>
    -- lines 277-286
    match st.conn with
    | none => (st, StepOut.halt (Outcome.panicked "connection for AwaitInput"))
    | some c =>
      match c.awaitScript with
      | [] => (st, StepOut.halt Outcome.stuck)
      | AwaitStep.fail e :: rest =>
        ({ st with
            conn := some { c with awaitScript := rest },
            trace := Effect.awaitCall timeout :: st.trace },
          StepOut.halt (Outcome.failure e))
      | AwaitStep.bytes bs :: rest =>
        let buf := c.inputBuf ++ bs
        let r := st.unit.handleInput (Input.Data buf)
        let c1 : Connection := { c with awaitScript := rest, inputBuf := buf.drop r.2 }
        ({ st with
            unit := r.1, conn := some c1,
            trace := Effect.awaitCall timeout :: st.trace }, StepOut.next)
  | Event.Response r e =>
    -- lines 288-301
    let st1 := { st with response := some r }
    let bm := st1.unit.bodyModes.headD none
    let st2 := { st1 with unit := { st1.unit with bodyModes := st1.unit.bodyModes.tail } }
    let st3 :=
      match bm with
      | some b => { st2 with recvBodyMode := b }
      | none => st2
    if e then (st3, StepOut.brk) else (st3, StepOut.next)
  | Event.ResponseBody =>
    -- lines 303-306: the state machine consumes redirect body bytes internally
    (st, StepOut.next)

/-- How the `loop` of `do_run` ends: `finished` via `break` on a terminal
`Response`, or `halted` by an early `return Err` / panic (`stuck` when an
oracle script ran out). -/
inductive LoopOut
| finished
| halted (o : Outcome)
deriving DecidableEq, Repr

/-- The `loop` of `Agent::do_run` (lines 139-308): each iteration selects the
buffer view (connection buffers or the `NoBuffers` placeholder), polls the
next event from the state machine's script, and handles it. -/
def loopRun (ag : Agent) (sbm : Option BodyMode) : List Event → EngineSt → EngineSt × LoopOut
| [], st => (st, LoopOut.halted Outcome.stuck)
| ev :: rest, st =>
  let _bufs := buffersOf st.conn
  match step ag sbm st ev with
  | (st1, StepOut.next) => loopRun ag sbm rest st1
  | (st1, StepOut.brk) => (st1, LoopOut.finished)
  | (st1, StepOut.halt o) => (st1, LoopOut.halted o)

/-- `decide (400 ≤ s ∧ s ≤ 499)`: `StatusCode::is_client_error`. -/
def isClientError (s : Nat) : Bool := decide (400 ≤ s ∧ s ≤ 499)

/-- `decide (500 ≤ s ∧ s ≤ 599)`: `StatusCode::is_server_error`. -/
def isServerError (s : Nat) : Bool := decide (500 ≤ s ∧ s ≤ 599)

/-- The post-loop epilogue of `Agent::do_run` (lines 310-327): unwrap the
captured response head and the connection, release the body, apply the
error-status policy, and otherwise assemble the final `Response` whose body
wraps the residual state machine, the connection, and the receive framing. -/
def finishRun (ag : Agent) (st : EngineSt) : Outcome :=
  match st.response with
  | none => Outcome.panicked "above loop to exit when there is a response"
  | some r =>
    match st.conn with
    | none => Outcome.panicked "connection to be open"
    | some c =>
      let u := st.unit.release_body
      let is_err := isClientError r.status || isServerError r.status
      if ag.config.http_status_as_error && is_err then
        Outcome.failure (Error.StatusCode r.status)
      else
        Outcome.success r.status r.headers u c r.headers st.recvBodyMode

/-- lines 125-129: `send_body_mode` is decided once, before the loop, from
the original request's headers and the body's own mode. -/
def sbmOf (req : Request) (bodyMode : BodyMode) : Option BodyMode :=
  if has_send_body_mode req.headers then none else some bodyMode

/-- Initial engine state (lines 131-137): fresh state machine (with its
oracle scripts), no resolved address, no connection, no response, receive
framing `NoBody`. -/
def initSt (du : List Nat) (bms : List (Option BodyMode)) (pool : List PoolStep) : EngineSt :=
  { unit := { fed := [], dataUsed := du, bodyModes := bms },
    addr := none, conn := none, response := none,
    recvBodyMode := BodyMode.NoBody, trace := [], pool := pool, now := 0 }

/-- `Agent::do_run`, as a function of the oracle scripts: the state machine's
event script, its `Data`-consumption and `body_mode` scripts, and the pool's
`connect` script.  Returns the outcome together with the final engine state
(whose trace and input log are the run's observable behavior). -/
def do_run (ag : Agent) (req : Request) (bodyMode : BodyMode) (du : List Nat)
    (bms : List (Option BodyMode)) (pool : List PoolStep) (script : List Event) :
    Outcome × EngineSt :=
  let sbm := sbmOf req bodyMode
  match loopRun ag sbm script (initSt du bms pool) with
  | (st, LoopOut.finished) => (finishRun ag st, st)
  | (st, LoopOut.halted o) => (o, st)

/-- Is an input a body-framing header injection? -/
def isFramingHeader : Input → Bool
| Input.Header n _ => n == "content-length" || n == "transfer-encoding"
| _ => false

@[simp] theorem feed_addr (st : EngineSt) (i : Input) : (feed st i).addr = st.addr := rfl

@[simp] theorem feed_conn (st : EngineSt) (i : Input) : (feed st i).conn = st.conn := rfl

@[simp] theorem feed_trace (st : EngineSt) (i : Input) : (feed st i).trace = st.trace := rfl

@[simp] theorem feed_pool (st : EngineSt) (i : Input) : (feed st i).pool = st.pool := rfl

@[simp] theorem feed_now (st : EngineSt) (i : Input) : (feed st i).now = st.now := rfl

@[simp] theorem feed_response (st : EngineSt) (i : Input) :
    (feed st i).response = st.response := rfl

@[simp] theorem feed_fed (st : EngineSt) (i : Input) :
    (feed st i).unit.fed = i :: st.unit.fed := by
  cases i <;> rfl

@[simp] theorem set_header_addr (st : EngineSt) (n v : String) :
    (set_header st n v).addr = st.addr := rfl

@[simp] theorem set_header_conn (st : EngineSt) (n v : String) :
    (set_header st n v).conn = st.conn := rfl

@[simp] theorem set_header_trace (st : EngineSt) (n v : String) :
    (set_header st n v).trace = st.trace := rfl

@[simp] theorem set_header_fed (st : EngineSt) (n v : String) :
    (set_header st n v).unit.fed = Input.Header n v :: st.unit.fed := rfl

theorem prepareFinish_out (ag : Agent) (sbm : Option BodyMode) (st1 : EngineSt) :
    (prepareFinish ag sbm st1).2 = StepOut.next
    ∨ (prepareFinish ag sbm st1).2 = StepOut.halt (Outcome.panicked "user agent header value") := by
  unfold prepareFinish
  (repeat' split) <;> simp

theorem prepareFinish_addr (ag : Agent) (sbm : Option BodyMode) (st1 : EngineSt) :
    (prepareFinish ag sbm st1).1.addr = st1.addr := by
  unfold prepareFinish
  (repeat' split) <;> simp

theorem prepareFinish_conn (ag : Agent) (sbm : Option BodyMode) (st1 : EngineSt) :
    (prepareFinish ag sbm st1).1.conn = st1.conn := by
  unfold prepareFinish
  (repeat' split) <;> simp

theorem prepareFinish_trace (ag : Agent) (sbm : Option BodyMode) (st1 : EngineSt) :
    (prepareFinish ag sbm st1).1.trace = st1.trace := by
  unfold prepareFinish
  (repeat' split) <;> simp

/-- Every input the `Prepare` continuation adds to the log is `Prepared` or
one of the injected headers. -/
theorem prepareFinish_fed_mem (ag : Agent) (sbm : Option BodyMode) (st1 : EngineSt)
    (i : Input) (h : i ∈ (prepareFinish ag sbm st1).1.unit.fed) :
    i ∈ st1.unit.fed ∨ i = Input.Prepared
    ∨ (∃ v, i = Input.Header "accept-encoding" v)
    ∨ (∃ n, sbm = some (BodyMode.LengthDelimited n)
        ∧ i = Input.Header "content-length" (Nat.repr n))
    ∨ (sbm = some BodyMode.Chunked ∧ i = Input.Header "transfer-encoding" "chunked")
    ∨ (∃ v, i = Input.Header "user-agent" v) := by
  revert h
  unfold prepareFinish
  (repeat' split) <;> simp [List.mem_cons] <;> tauto

/-- The `Prepare` continuation never removes an input already logged. -/
theorem prepareFinish_fed_mono (ag : Agent) (sbm : Option BodyMode) (st1 : EngineSt)
    (i : Input) (h : i ∈ st1.unit.fed) :
    i ∈ (prepareFinish ag sbm st1).1.unit.fed := by
  unfold prepareFinish
  (repeat' split) <;> simp [List.mem_cons] <;> tauto

/-- A length-delimited send body always injects its `content-length`. -/
theorem prepareFinish_cl (ag : Agent) (n : Nat) (st1 : EngineSt) :
    Input.Header "content-length" (Nat.repr n)
      ∈ (prepareFinish ag (some (BodyMode.LengthDelimited n)) st1).1.unit.fed := by
  unfold prepareFinish
  (repeat' split) <;> simp_all [List.mem_cons]

/-- A chunked send body always injects `transfer-encoding: chunked`. -/
theorem prepareFinish_te (ag : Agent) (st1 : EngineSt) :
    Input.Header "transfer-encoding" "chunked"
      ∈ (prepareFinish ag (some BodyMode.Chunked) st1).1.unit.fed := by
  unfold prepareFinish
  (repeat' split) <;> simp_all [List.mem_cons]

/-- Witness fixture: an agent with the given https-only / error-status flags,
user agent, cookie capability and cookie-jar answer; resolver always answers
address 7. -/
def mkAgent (ho hs : Bool) (ua : String) (ck : Bool) (cv : String) : Agent :=
  { config := { https_only := ho, http_status_as_error := hs, user_agent := ua },
    resolve := fun _ _ => ResolveRes.addr 7,
    cookiesEnabled := ck, getRequestCookies := fun _ => cv, acceptEncoding := none }

/-- Witness fixture: a full HTTPS URI. -/
def uriW : Uri := { scheme := some Scheme.HTTPS, full := true, s := "https://example.com/" }

/-- Witness fixture: a full plain-HTTP URI. -/
def uriHttpW : Uri := { scheme := some Scheme.HTTP, full := true, s := "http://example.com/" }

/-- Witness fixture: a connection whose next `await_input` yields two bytes. -/
def connW : Connection := { awaitScript := [AwaitStep.bytes [1, 2]], transmitScript := [], inputBuf := [] }

/-- Witness fixture: a mid-run engine state holding `connW`, with the state
machine scripted to consume one byte per `Data` input. -/
def stW : EngineSt :=
  { unit := { fed := [Input.Begin], dataUsed := [1], bodyModes := [] },
    addr := some 7, conn := some connW, response := none,
    recvBodyMode := BodyMode.NoBody, trace := [], pool := [], now := 0 }

/-- C5: on every `Reset{must_close}` event the engine continues the loop,
clears the resolved address, releases the held connection (closing it when
`must_close`, else returning it to the pool as idle at the current time),
and feeds `Begin` to the state machine. -/
theorem reset_event_spec (ag : Agent) (sbm : Option BodyMode) (st : EngineSt) (mc : Bool) :
    (step ag sbm st (Event.Reset mc)).2 = StepOut.next
    ∧ (step ag sbm st (Event.Reset mc)).1.addr = none
    ∧ (step ag sbm st (Event.Reset mc)).1.conn = none
    ∧ (step ag sbm st (Event.Reset mc)).1.unit.fed = Input.Begin :: st.unit.fed
    ∧ (st.conn ≠ none →
        (step ag sbm st (Event.Reset mc)).1.trace =
          (if mc then Effect.closeConn else Effect.reuseConn st.now) :: st.trace)
    ∧ (st.conn = none → (step ag sbm st (Event.Reset mc)).1.trace = st.trace) := by
  cases hc : st.conn <;> cases mc <;>
    simp [step, hc]

/-- C5 witness: `Reset{must_close := true}` on a state holding a connection. -/
theorem reset_event_spec_witness :
    stW.conn ≠ none
    ∧ (step (mkAgent false false "" false "") none stW (Event.Reset true)).1.trace =
        (if true then Effect.closeConn else Effect.reuseConn stW.now) :: stW.trace := by
  refine ⟨by decide, ?_⟩
  exact (reset_event_spec (mkAgent false false "" false "") none stW true).2.2.2.2.1 (by decide)

/-- C6: on every `Resolve{uri,timeout}` event the engine first checks the URI
is a full URI — failing the call with no resolver side effect otherwise —
and only then calls the resolver, stores the returned address and feeds
`Resolved`; a resolver error aborts the call after the resolver call. -/
theorem resolve_event_spec (ag : Agent) (sbm : Option BodyMode) (st : EngineSt)
    (uri : Uri) (t : Nat) :
    (uri.full = false →
      step ag sbm st (Event.Resolve uri t)
        = (st, StepOut.halt (Outcome.failure (Error.BadUri uri.s))))
    ∧ (∀ a, uri.full = true → ag.resolve uri t = ResolveRes.addr a →
        (step ag sbm st (Event.Resolve uri t)).2 = StepOut.next
        ∧ (step ag sbm st (Event.Resolve uri t)).1.addr = some a
        ∧ (step ag sbm st (Event.Resolve uri t)).1.unit.fed = Input.Resolved :: st.unit.fed
        ∧ (step ag sbm st (Event.Resolve uri t)).1.trace = Effect.resolveCall uri t :: st.trace)
    ∧ (∀ e, uri.full = true → ag.resolve uri t = ResolveRes.fail e →
        (step ag sbm st (Event.Resolve uri t)).2 = StepOut.halt (Outcome.failure e)
        ∧ (step ag sbm st (Event.Resolve uri t)).1.trace
            = Effect.resolveCall uri t :: st.trace) := by
  refine ⟨fun hf => by simp [step, hf], fun a hf hr => ?_, fun e hf hr => ?_⟩
  · simp [step, hf, hr]
  · simp [step, hf, hr]

/-- C6 witness: resolving the full URI `uriW` with the fixture resolver. -/
theorem resolve_event_spec_witness :
    uriW.full = true
    ∧ (mkAgent false false "" false "").resolve uriW 3 = ResolveRes.addr 7
    ∧ (step (mkAgent false false "" false "") none stW (Event.Resolve uriW 3)).1.addr = some 7 := by
  refine ⟨by decide, rfl, ?_⟩
  exact ((resolve_event_spec (mkAgent false false "" false "") none stW uriW 3).2.1 7
    (by decide) rfl).2.1

/-- C3: handling `Await100`: a timeout from `await_input` is not an error —
the engine feeds `EndAwait100` and continues; received bytes are fed as a
`Data` input (the connection's input buffer, extended by the received
bytes); any other error from `await_input` aborts the call with it. -/
theorem await100_event_spec (ag : Agent) (sbm : Option BodyMode) (st : EngineSt)
    (t : Nat) (c : Connection) (hc : st.conn = some c) :
    (∀ k rest, c.awaitScript = AwaitStep.fail (Error.Timeout k) :: rest →
      (step ag sbm st (Event.Await100 t)).2 = StepOut.next
      ∧ (step ag sbm st (Event.Await100 t)).1.unit.fed = Input.EndAwait100 :: st.unit.fed)
    ∧ (∀ bs rest, c.awaitScript = AwaitStep.bytes bs :: rest →
      (step ag sbm st (Event.Await100 t)).2 = StepOut.next
      ∧ (step ag sbm st (Event.Await100 t)).1.unit.fed
          = Input.Data (c.inputBuf ++ bs) :: st.unit.fed)
    ∧ (∀ e rest, c.awaitScript = AwaitStep.fail e :: rest → (∀ k, e ≠ Error.Timeout k) →
      (step ag sbm st (Event.Await100 t)).2 = StepOut.halt (Outcome.failure e)) := by
  refine ⟨fun k rest hs => ?_, fun bs rest hs => ?_, fun e rest hs he => ?_⟩
  · simp [step, hc, hs]
  · simp [step, hc, hs]
  · cases e <;> simp [step, hc, hs]
    exact absurd rfl (he _)

/-- C3 witness: a timeout during the 100-continue wait continues the loop
with `EndAwait100` fed. -/
theorem await100_event_spec_witness :
    (let stT : EngineSt :=
      { stW with conn := some { connW with awaitScript := [AwaitStep.fail (Error.Timeout 0)] } }
     (step (mkAgent false false "" false "") none stT (Event.Await100 9)).2 = StepOut.next
     ∧ (step (mkAgent false false "" false "") none stT (Event.Await100 9)).1.unit.fed
         = Input.EndAwait100 :: stT.unit.fed) := by
  exact (await100_event_spec (mkAgent false false "" false "") none _ 9
    { connW with awaitScript := [AwaitStep.fail (Error.Timeout 0)] } rfl).1 0 [] rfl

/-- C7: on every `AwaitInput{timeout}` event (with a connection held whose
`await_input` yields bytes) the engine records the blocking wait, feeds the
connection's input buffer as a `Data` input, and releases from the buffer
exactly the byte count the state machine reports consumed. -/
theorem await_input_event_spec (ag : Agent) (sbm : Option BodyMode) (st : EngineSt)
    (t : Nat) (c : Connection) (bs : List Nat) (rest : List AwaitStep)
    (hc : st.conn = some c) (hs : c.awaitScript = AwaitStep.bytes bs :: rest) :
    (step ag sbm st (Event.AwaitInput t)).2 = StepOut.next
    ∧ (step ag sbm st (Event.AwaitInput t)).1.unit.fed
        = Input.Data (c.inputBuf ++ bs) :: st.unit.fed
    ∧ (step ag sbm st (Event.AwaitInput t)).1.conn
        = some { c with
            awaitScript := rest,
            inputBuf := (c.inputBuf ++ bs).drop (st.unit.dataUsed.headD 0) }
    ∧ (step ag sbm st (Event.AwaitInput t)).1.trace = Effect.awaitCall t :: st.trace := by
  simp [step, hc, hs, Unit.handleInput]

/-- C7 witness: two received bytes fed as `Data`, one byte (the scripted
consumed count) released from the read buffer. -/
theorem await_input_event_spec_witness :
    stW.conn = some connW
    ∧ connW.awaitScript = AwaitStep.bytes [1, 2] :: []
    ∧ (step (mkAgent false false "" false "") none stW (Event.AwaitInput 4)).1.conn
        = some { connW with awaitScript := [], inputBuf := [2] } := by
  refine ⟨rfl, rfl, ?_⟩
  exact (await_input_event_spec (mkAgent false false "" false "") none stW 4 connW
    [1, 2] [] rfl rfl).2.2.1

/-- Every handled event either continues the loop, aborts the call, or — only
for a `Response` event with `end` true — breaks out of the loop. -/
theorem step_out_shape (ag : Agent) (sbm : Option BodyMode) (st : EngineSt) (ev : Event) :
    (step ag sbm st ev).2 = StepOut.next
    ∨ (∃ o, (step ag sbm st ev).2 = StepOut.halt o)
    ∨ (∃ r, ev = Event.Response r true ∧ (step ag sbm st ev).2 = StepOut.brk) := by
  cases ev with
  | Prepare uri =>
    simp only [step]
    split
    · exact Or.inr (Or.inl ⟨_, rfl⟩)
    · split
      · exact Or.inr (Or.inl ⟨_, rfl⟩)
      · rcases prepareFinish_out ag sbm _ with h | h
        · exact Or.inl h
        · exact Or.inr (Or.inl ⟨_, h⟩)
  | Reset mc => simp only [step]; (repeat' split) <;> simp_all
  | Resolve uri t => simp only [step]; (repeat' split) <;> simp_all
  | OpenConnection uri t => simp only [step]; (repeat' split) <;> simp_all
  | Await100 t => simp only [step]; (repeat' split) <;> simp_all
  | Transmit a t => simp only [step]; (repeat' split) <;> simp_all
  | AwaitInput t => simp only [step]; (repeat' split) <;> simp_all
  | Response r e => simp only [step]; (repeat' split) <;> simp_all
  | ResponseBody => simp only [step]; (repeat' split) <;> simp_all

/-- C1: post-loop status policy: for an exchange whose loop finished with
response head `r` and a held connection, if the error-status flag is set and
the status is 4xx/5xx then `do_run` fails with `StatusCode` carrying that
code; with the flag unset the same exchange succeeds with that status. -/
theorem status_policy_spec (ag : Agent) (req : Request) (bm : BodyMode)
    (du : List Nat) (bms : List (Option BodyMode)) (pool : List PoolStep)
    (script : List Event) (st : EngineSt) (r : RespHead) (c : Connection)
    (hloop : loopRun ag (sbmOf req bm) script (initSt du bms pool) = (st, LoopOut.finished))
    (hr : st.response = some r) (hc : st.conn = some c) :
    (ag.config.http_status_as_error = true →
      (isClientError r.status || isServerError r.status) = true →
      (do_run ag req bm du bms pool script).1 = Outcome.failure (Error.StatusCode r.status))
    ∧ (ag.config.http_status_as_error = false →
      ∃ hs u cc ih ibm,
        (do_run ag req bm du bms pool script).1 = Outcome.success r.status hs u cc ih ibm) := by
  constructor
  · intro hf he
    simp [do_run, hloop, finishRun, hr, hc, hf, he]
  · intro hf
    refine ⟨r.headers, st.unit.release_body, c, r.headers, st.recvBodyMode, ?_⟩
    simp [do_run, hloop, finishRun, hr, hc, hf]

/-- C1 witness: a 404 exchange under the enabled error-status flag fails with
`StatusCode 404`. -/
theorem status_policy_spec_witness :
    (mkAgent false true "" false "").config.http_status_as_error = true
    ∧ (isClientError 404 || isServerError 404) = true
    ∧ (do_run (mkAgent false true "" false "") ⟨[]⟩ BodyMode.NoBody [] [] [PoolStep.conn connW]
        [Event.Resolve uriW 0, Event.OpenConnection uriW 0, Event.Response ⟨404, []⟩ true]).1
      = Outcome.failure (Error.StatusCode 404) := by
  refine ⟨rfl, by decide, ?_⟩
  exact (status_policy_spec (mkAgent false true "" false "") ⟨[]⟩ BodyMode.NoBody [] []
    [PoolStep.conn connW]
    [Event.Resolve uriW 0, Event.OpenConnection uriW 0, Event.Response ⟨404, []⟩ true]
    _ ⟨404, []⟩ connW rfl rfl rfl).1 rfl (by decide)

/-- C2: with https-only enabled, a call whose `Prepare` event carries a URI
whose scheme is not HTTPS fails with `AgentRequireHttpsOnly` immediately:
the effect trace is empty (no resolver call, no connection, no I/O) and
nothing was fed to the state machine. -/
theorem https_only_spec (ag : Agent) (req : Request) (bm : BodyMode)
    (du : List Nat) (bms : List (Option BodyMode)) (pool : List PoolStep)
    (uri : Uri) (rest : List Event)
    (h1 : ag.config.https_only = true) (h2 : uri.scheme ≠ some Scheme.HTTPS) :
    (do_run ag req bm du bms pool (Event.Prepare uri :: rest)).1
      = Outcome.failure (Error.AgentRequireHttpsOnly uri.s)
    ∧ (do_run ag req bm du bms pool (Event.Prepare uri :: rest)).2.trace = []
    ∧ (do_run ag req bm du bms pool (Event.Prepare uri :: rest)).2.unit.fed = [] := by
  have hstep : step ag (sbmOf req bm) (initSt du bms pool) (Event.Prepare uri)
      = (initSt du bms pool,
          StepOut.halt (Outcome.failure (Error.AgentRequireHttpsOnly uri.s))) := by
    simp [step, h1, h2]
  have hrun : do_run ag req bm du bms pool (Event.Prepare uri :: rest)
      = (Outcome.failure (Error.AgentRequireHttpsOnly uri.s), initSt du bms pool) := by
    simp only [do_run, loopRun]
    rw [hstep]
  rw [hrun]
  exact ⟨rfl, rfl, rfl⟩

/-- C2 witness: an agent with https-only enabled rejects a plain-HTTP URI at
`Prepare`. -/
theorem https_only_spec_witness :
    (mkAgent true false "" false "").config.https_only = true
    ∧ uriHttpW.scheme ≠ some Scheme.HTTPS
    ∧ (do_run (mkAgent true false "" false "") ⟨[]⟩ BodyMode.NoBody [] [] []
        [Event.Prepare uriHttpW]).1
      = Outcome.failure (Error.AgentRequireHttpsOnly uriHttpW.s)
    ∧ (do_run (mkAgent true false "" false "") ⟨[]⟩ BodyMode.NoBody [] [] []
        [Event.Prepare uriHttpW]).2.trace = [] := by
  refine ⟨rfl, by decide, ?_, ?_⟩
  · exact (https_only_spec (mkAgent true false "" false "") ⟨[]⟩ BodyMode.NoBody [] [] []
      uriHttpW [] rfl (by decide)).1
  · exact (https_only_spec (mkAgent true false "" false "") ⟨[]⟩ BodyMode.NoBody [] [] []
      uriHttpW [] rfl (by decide)).2.1

/-- C10: cookie handling during `Prepare` with the cookie capability enabled:
an empty jar answer injects no `cookie` header; a non-empty answer that is
not a valid header value fails the call with `CookieValue` — and at call
level, before any resolve/connect/network effect; a non-empty valid answer
is injected as a `cookie` header. -/
theorem cookie_injection_spec (ag : Agent) (sbm : Option BodyMode) (st : EngineSt) (uri : Uri)
    (hen : ag.cookiesEnabled = true)
    (hh : ¬ (ag.config.https_only = true ∧ uri.scheme ≠ some Scheme.HTTPS)) :
    (ag.getRequestCookies uri = "" →
      ∀ w, Input.Header "cookie" w ∈ (step ag sbm st (Event.Prepare uri)).1.unit.fed →
        Input.Header "cookie" w ∈ st.unit.fed)
    ∧ (ag.getRequestCookies uri ≠ "" →
        isValidHeaderValue (ag.getRequestCookies uri) = false →
        step ag sbm st (Event.Prepare uri)
          = (st, StepOut.halt (Outcome.failure
              (Error.CookieValue "Cookie value is an invalid http-header"))))
    ∧ (∀ req bm du bms pool rest,
        ag.getRequestCookies uri ≠ "" →
        isValidHeaderValue (ag.getRequestCookies uri) = false →
        ¬ (ag.config.https_only = true ∧ uri.scheme ≠ some Scheme.HTTPS) →
        (do_run ag req bm du bms pool (Event.Prepare uri :: rest)).1
            = Outcome.failure (Error.CookieValue "Cookie value is an invalid http-header")
        ∧ (do_run ag req bm du bms pool (Event.Prepare uri :: rest)).2.trace = [])
    ∧ (ag.getRequestCookies uri ≠ "" →
        isValidHeaderValue (ag.getRequestCookies uri) = true →
        Input.Header "cookie" (ag.getRequestCookies uri)
          ∈ (step ag sbm st (Event.Prepare uri)).1.unit.fed) := by
  have key : ∀ (sbm' : Option BodyMode) (st' : EngineSt),
      ag.getRequestCookies uri ≠ "" →
      isValidHeaderValue (ag.getRequestCookies uri) = false →
      step ag sbm' st' (Event.Prepare uri)
        = (st', StepOut.halt (Outcome.failure
            (Error.CookieValue "Cookie value is an invalid http-header"))) := by
    intro sbm' st' hne hinv
    simp [step, hh, hen, hne, hinv]
  refine ⟨fun hv w hw => ?_, fun hne hinv => key sbm st hne hinv,
    fun req bm du bms pool rest hne hinv _ => ?_, fun hne hval => ?_⟩
  · have hstep : step ag sbm st (Event.Prepare uri) = prepareFinish ag sbm st := by
      simp [step, hh, hen, hv]
    rw [hstep] at hw
    rcases prepareFinish_fed_mem ag sbm st _ hw with
      h | h | ⟨v, h⟩ | ⟨n, _, h⟩ | ⟨_, h⟩ | ⟨v, h⟩
    · exact h
    · cases h
    · injection h with h1 h2; exact absurd h1 (by decide)
    · injection h with h1 h2; exact absurd h1 (by decide)
    · injection h with h1 h2; exact absurd h1 (by decide)
    · injection h with h1 h2; exact absurd h1 (by decide)
  · have hstep := key (sbmOf req bm) (initSt du bms pool) hne hinv
    have hrun : do_run ag req bm du bms pool (Event.Prepare uri :: rest)
        = (Outcome.failure (Error.CookieValue "Cookie value is an invalid http-header"),
            initSt du bms pool) := by
      simp only [do_run, loopRun]
      rw [hstep]
    rw [hrun]
    exact ⟨rfl, rfl⟩
  · have hstep : step ag sbm st (Event.Prepare uri)
        = prepareFinish ag sbm (set_header st "cookie" (ag.getRequestCookies uri)) := by
      simp [step, hh, hen, hne, hval]
    rw [hstep]
    exact prepareFinish_fed_mono ag sbm _ _ (by simp [set_header_fed])

/-- C10 witness: a non-empty cookie value containing a newline is rejected
with `CookieValue` and an empty effect trace. -/
theorem cookie_injection_spec_witness :
    (mkAgent false false "" true "a\nb").cookiesEnabled = true
    ∧ (mkAgent false false "" true "a\nb").getRequestCookies uriW ≠ ""
    ∧ isValidHeaderValue ((mkAgent false false "" true "a\nb").getRequestCookies uriW) = false
    ∧ (do_run (mkAgent false false "" true "a\nb") ⟨[]⟩ BodyMode.NoBody [] [] []
        [Event.Prepare uriW]).1
      = Outcome.failure (Error.CookieValue "Cookie value is an invalid http-header")
    ∧ (do_run (mkAgent false false "" true "a\nb") ⟨[]⟩ BodyMode.NoBody [] [] []
        [Event.Prepare uriW]).2.trace = [] := by
  refine ⟨rfl, by decide, by decide, ?_, ?_⟩
  · exact ((cookie_injection_spec (mkAgent false false "" true "a\nb") none
      (initSt [] [] []) uriW rfl (by decide)).2.2.1 ⟨[]⟩ BodyMode.NoBody [] [] [] []
      (by decide) (by decide) (by decide)).1
  · exact ((cookie_injection_spec (mkAgent false false "" true "a\nb") none
      (initSt [] [] []) uriW rfl (by decide)).2.2.1 ⟨[]⟩ BodyMode.NoBody [] [] [] []
      (by decide) (by decide) (by decide)).2

/-- C4: the loop breaks only on a `Response` event with `end` true (`end`
false continues), and on success `do_run` returns a response assembled from
the captured head, the residual state machine, the still-held connection,
and the negotiated receive body framing. -/
theorem response_assembly_spec (ag : Agent) (sbm : Option BodyMode) (st : EngineSt) :
    (∀ ev, (step ag sbm st ev).2 = StepOut.brk → ∃ r, ev = Event.Response r true)
    ∧ (∀ r, (step ag sbm st (Event.Response r false)).2 = StepOut.next)
    ∧ (∀ r, (step ag sbm st (Event.Response r true)).2 = StepOut.brk
        ∧ (step ag sbm st (Event.Response r true)).1.response = some r)
    ∧ (∀ req bm du bms pool script st1 r c,
        loopRun ag (sbmOf req bm) script (initSt du bms pool) = (st1, LoopOut.finished) →
        st1.response = some r → st1.conn = some c →
        (ag.config.http_status_as_error
          && (isClientError r.status || isServerError r.status)) = false →
        (do_run ag req bm du bms pool script).1
          = Outcome.success r.status r.headers st1.unit.release_body c
              r.headers st1.recvBodyMode) := by
  refine ⟨fun ev h => ?_, fun r => by simp only [step]; (repeat' split) <;> simp_all,
    fun r => ⟨by simp only [step]; (repeat' split) <;> simp_all,
      by simp only [step]; (repeat' split) <;> simp_all⟩,
    fun req bm du bms pool script st1 r c hloop hr hc hcond => ?_⟩
  · rcases step_out_shape ag sbm st ev with h1 | ⟨o, h1⟩ | ⟨r, hev, h1⟩
    · rw [h1] at h; cases h
    · rw [h1] at h; cases h
    · exact ⟨r, hev⟩
  · simp [do_run, hloop, finishRun, hr, hc, hcond]

/-- C4 witness: a 200 exchange with the error-status flag unset returns the
assembled successful response. -/
theorem response_assembly_spec_witness :
    (do_run (mkAgent false false "" false "") ⟨[]⟩ BodyMode.NoBody [] [] [PoolStep.conn connW]
      [Event.Resolve uriW 0, Event.OpenConnection uriW 0, Event.Response ⟨200, []⟩ true]).1
    = Outcome.success 200 []
        { fed := [Input.ConnectionOpen, Input.Resolved], dataUsed := [], bodyModes := [] }
        connW [] BodyMode.NoBody := by
  exact (response_assembly_spec (mkAgent false false "" false "") none
    (initSt [] [] [])).2.2.2 ⟨[]⟩ BodyMode.NoBody [] [] [PoolStep.conn connW]
    [Event.Resolve uriW 0, Event.OpenConnection uriW 0, Event.Response ⟨200, []⟩ true]
    _ ⟨200, []⟩ connW rfl rfl rfl (by decide)

theorem step_reset_facts (ag : Agent) (sbm : Option BodyMode) (st : EngineSt) (mc : Bool) :
    (step ag sbm st (Event.Reset mc)).2 = StepOut.next
    ∧ (step ag sbm st (Event.Reset mc)).1.addr = none
    ∧ (step ag sbm st (Event.Reset mc)).1.conn = none := by
  cases hcn : st.conn <;> cases mc <;> simp [step, hcn]

theorem step_prepare_facts (ag : Agent) (sbm : Option BodyMode) (st : EngineSt) (uri : Uri) :
    ((step ag sbm st (Event.Prepare uri)).2 = StepOut.next
      ∧ (step ag sbm st (Event.Prepare uri)).1.addr = st.addr
      ∧ (step ag sbm st (Event.Prepare uri)).1.conn = st.conn)
    ∨ (∃ e, (step ag sbm st (Event.Prepare uri)).2 = StepOut.halt (Outcome.failure e))
    ∨ (step ag sbm st (Event.Prepare uri)).2
        = StepOut.halt (Outcome.panicked "user agent header value") := by
  simp only [step]
  split
  · exact Or.inr (Or.inl ⟨_, rfl⟩)
  · split
    · exact Or.inr (Or.inl ⟨_, rfl⟩)
    · rename_i st1 heq
      have hst1 : st1.addr = st.addr ∧ st1.conn = st.conn := by
        split_ifs at heq <;>
          first
          | (cases heq; exact ⟨rfl, rfl⟩)
          | simp_all [set_header]
      rcases prepareFinish_out ag sbm st1 with h | h
      · exact Or.inl ⟨h, by rw [prepareFinish_addr, hst1.1], by rw [prepareFinish_conn, hst1.2]⟩
      · exact Or.inr (Or.inr h)

theorem step_resolve_facts (ag : Agent) (sbm : Option BodyMode) (st : EngineSt)
    (uri : Uri) (t : Nat) :
    ((step ag sbm st (Event.Resolve uri t)).2 = StepOut.next
      ∧ (step ag sbm st (Event.Resolve uri t)).1.addr.isSome = true
      ∧ (step ag sbm st (Event.Resolve uri t)).1.conn = st.conn)
    ∨ (∃ e, (step ag sbm st (Event.Resolve uri t)).2 = StepOut.halt (Outcome.failure e)) := by
  simp only [step]
  split
  · exact Or.inr ⟨_, rfl⟩
  · split
    · exact Or.inr ⟨_, rfl⟩
    · exact Or.inl ⟨rfl, by simp, by simp⟩

theorem step_open_facts (ag : Agent) (sbm : Option BodyMode) (st : EngineSt)
    (uri : Uri) (t : Nat) (ha : st.addr.isSome = true) :
    ((step ag sbm st (Event.OpenConnection uri t)).2 = StepOut.next
      ∧ (step ag sbm st (Event.OpenConnection uri t)).1.conn.isSome = true
      ∧ (step ag sbm st (Event.OpenConnection uri t)).1.addr = st.addr)
    ∨ (∃ e, (step ag sbm st (Event.OpenConnection uri t)).2 = StepOut.halt (Outcome.failure e))
    ∨ (step ag sbm st (Event.OpenConnection uri t)).2 = StepOut.halt Outcome.stuck := by
  rcases hsome : st.addr with _ | a
  · rw [hsome] at ha; cases ha
  · rcases hp : st.pool with _ | ⟨p, ps⟩
    · simp [step, hsome, hp]
    · cases p with
      | conn c => exact Or.inl ⟨by simp [step, hsome, hp], by simp [step, hsome, hp],
          by simp [step, hsome, hp]⟩
      | fail e => exact Or.inr (Or.inl ⟨e, by simp [step, hsome, hp]⟩)

theorem step_await100_facts (ag : Agent) (sbm : Option BodyMode) (st : EngineSt)
    (t : Nat) (hc : st.conn.isSome = true) :
    ((step ag sbm st (Event.Await100 t)).2 = StepOut.next
      ∧ (step ag sbm st (Event.Await100 t)).1.conn.isSome = true
      ∧ (step ag sbm st (Event.Await100 t)).1.addr = st.addr)
    ∨ (∃ e, (step ag sbm st (Event.Await100 t)).2 = StepOut.halt (Outcome.failure e))
    ∨ (step ag sbm st (Event.Await100 t)).2 = StepOut.halt Outcome.stuck := by
  rcases hsome : st.conn with _ | c
  · rw [hsome] at hc; cases hc
  · rcases hs : c.awaitScript with _ | ⟨a, rest⟩
    · simp [step, hsome, hs]
    · cases a with
      | bytes bs => exact Or.inl ⟨by simp [step, hsome, hs], by simp [step, hsome, hs],
          by simp [step, hsome, hs]⟩
      | fail e =>
        cases e with
        | Timeout r => exact Or.inl ⟨by simp [step, hsome, hs], by simp [step, hsome, hs],
            by simp [step, hsome, hs]⟩
        | AgentRequireHttpsOnly u =>
          exact Or.inr (Or.inl ⟨Error.AgentRequireHttpsOnly u, by simp [step, hsome, hs]⟩)
        | CookieValue m =>
          exact Or.inr (Or.inl ⟨Error.CookieValue m, by simp [step, hsome, hs]⟩)
        | BadUri u => exact Or.inr (Or.inl ⟨Error.BadUri u, by simp [step, hsome, hs]⟩)
        | StatusCode n => exact Or.inr (Or.inl ⟨Error.StatusCode n, by simp [step, hsome, hs]⟩)
        | Io n => exact Or.inr (Or.inl ⟨Error.Io n, by simp [step, hsome, hs]⟩)

theorem step_transmit_facts (ag : Agent) (sbm : Option BodyMode) (st : EngineSt)
    (a t : Nat) (hc : st.conn.isSome = true) :
    ((step ag sbm st (Event.Transmit a t)).2 = StepOut.next
      ∧ (step ag sbm st (Event.Transmit a t)).1.conn.isSome = true
      ∧ (step ag sbm st (Event.Transmit a t)).1.addr = st.addr)
    ∨ (∃ e, (step ag sbm st (Event.Transmit a t)).2 = StepOut.halt (Outcome.failure e)) := by
  rcases hsome : st.conn with _ | c
  · rw [hsome] at hc; cases hc
  · rcases hs : c.transmitScript with _ | ⟨p, rest⟩
    · exact Or.inl ⟨by simp [step, hsome, hs], by simp [step, hsome, hs],
        by simp [step, hsome, hs]⟩
    · cases p with
      | some e => exact Or.inr ⟨e, by simp [step, hsome, hs]⟩
      | none => exact Or.inl ⟨by simp [step, hsome, hs], by simp [step, hsome, hs],
          by simp [step, hsome, hs]⟩

theorem step_awaitinput_facts (ag : Agent) (sbm : Option BodyMode) (st : EngineSt)
    (t : Nat) (hc : st.conn.isSome = true) :
    ((step ag sbm st (Event.AwaitInput t)).2 = StepOut.next
      ∧ (step ag sbm st (Event.AwaitInput t)).1.conn.isSome = true
      ∧ (step ag sbm st (Event.AwaitInput t)).1.addr = st.addr)
    ∨ (∃ e, (step ag sbm st (Event.AwaitInput t)).2 = StepOut.halt (Outcome.failure e))
    ∨ (step ag sbm st (Event.AwaitInput t)).2 = StepOut.halt Outcome.stuck := by
  rcases hsome : st.conn with _ | c
  · rw [hsome] at hc; cases hc
  · rcases hs : c.awaitScript with _ | ⟨a, rest⟩
    · simp [step, hsome, hs]
    · cases a with
      | bytes bs => exact Or.inl ⟨by simp [step, hsome, hs], by simp [step, hsome, hs],
          by simp [step, hsome, hs]⟩
      | fail e => exact Or.inr (Or.inl ⟨e, by simp [step, hsome, hs]⟩)

theorem step_response_facts (ag : Agent) (sbm : Option BodyMode) (st : EngineSt)
    (r : RespHead) (e : Bool) :
    ((step ag sbm st (Event.Response r e)).2 = StepOut.next
      ∨ (step ag sbm st (Event.Response r e)).2 = StepOut.brk)
    ∧ (step ag sbm st (Event.Response r e)).1.addr = st.addr
    ∧ (step ag sbm st (Event.Response r e)).1.conn = st.conn := by
  refine ⟨?_, ?_, ?_⟩ <;> simp only [step] <;> (repeat' split) <;> simp

theorem step_responsebody_facts (ag : Agent) (sbm : Option BodyMode) (st : EngineSt) :
    step ag sbm st Event.ResponseBody = (st, StepOut.next) := rfl

/-- Modelled from the spec: the protocol state machine's event-sequencing
invariant (§3): an address is resolved before connection establishment, and
a connection exists before `Await100`/`Transmit`/`AwaitInput`; a `Reset`
releases both.  The two Booleans track whether an address / a connection is
currently held. -/
def scriptOk : Bool → Bool → List Event → Bool
| _, _, [] => true
| _, _, Event.Reset _ :: rest => scriptOk false false rest
| a, c, Event.Prepare _ :: rest => scriptOk a c rest
| _, c, Event.Resolve _ _ :: rest => scriptOk true c rest
| a, _, Event.OpenConnection _ _ :: rest => a && scriptOk a true rest
| a, c, Event.Await100 _ :: rest => c && scriptOk a c rest
| a, c, Event.Transmit _ _ :: rest => c && scriptOk a c rest
| a, c, Event.AwaitInput _ :: rest => c && scriptOk a c rest
| a, c, Event.Response _ _ :: rest => scriptOk a c rest
| a, c, Event.ResponseBody :: rest => scriptOk a c rest

/-- Under the sequencing invariant, the loop never aborts via one of the
three `.expect` panics of the loop body. -/
theorem loopRun_no_panic (ag : Agent) (sbm : Option BodyMode) :
    ∀ script st, scriptOk st.addr.isSome st.conn.isSome script = true →
      ∀ m, m = "addr to be available after Event::Resolve"
          ∨ m = "connection for AwaitInput" ∨ m = "connection for Transmit" →
      (loopRun ag sbm script st).2 ≠ LoopOut.halted (Outcome.panicked m) := by
  intro script
  induction script with
  | nil =>
    intro st h m hm hcontra
    simp [loopRun] at hcontra
  | cons ev rest ih =>
    intro st h m hm hcontra
    simp only [loopRun] at hcontra
    cases ev with
    | Reset mc =>
      obtain ⟨h2, ha, hc⟩ := step_reset_facts ag sbm st mc
      rcases hstep : step ag sbm st (Event.Reset mc) with ⟨st', out⟩
      rw [hstep] at hcontra h2 ha hc
      simp only at h2 ha hc
      subst h2
      simp only at hcontra
      have h' : scriptOk st'.addr.isSome st'.conn.isSome rest = true := by
        rw [ha, hc]
        simpa [scriptOk] using h
      exact ih st' h' m hm hcontra
    | Prepare uri =>
      rcases step_prepare_facts ag sbm st uri with ⟨h2, ha, hc⟩ | ⟨e, h2⟩ | h2 <;>
        rcases hstep : step ag sbm st (Event.Prepare uri) with ⟨st', out⟩ <;>
        rw [hstep] at hcontra h2 <;> simp only at h2 <;> subst h2 <;>
        simp only at hcontra
      · rw [hstep] at ha hc
        simp only at ha hc
        have h' : scriptOk st'.addr.isSome st'.conn.isSome rest = true := by
          rw [ha, hc]
          simpa [scriptOk] using h
        exact ih st' h' m hm hcontra
      · simp at hcontra
      · simp at hcontra
        rcases hm with rfl | rfl | rfl <;> simp_all
    | Resolve uri t =>
      rcases step_resolve_facts ag sbm st uri t with ⟨h2, ha, hc⟩ | ⟨e, h2⟩ <;>
        rcases hstep : step ag sbm st (Event.Resolve uri t) with ⟨st', out⟩ <;>
        rw [hstep] at hcontra h2 <;> simp only at h2 <;> subst h2 <;>
        simp only at hcontra
      · rw [hstep] at ha hc
        simp only at ha hc
        have h' : scriptOk st'.addr.isSome st'.conn.isSome rest = true := by
          rw [ha, hc]
          simpa [scriptOk] using h
        exact ih st' h' m hm hcontra
      · simp at hcontra
    | OpenConnection uri t =>
      have hsplit : st.addr.isSome = true
          ∧ scriptOk st.addr.isSome true rest = true := by
        have h0 : (st.addr.isSome && scriptOk st.addr.isSome true rest) = true := by
          simpa [scriptOk] using h
        simpa [Bool.and_eq_true] using h0
      rcases step_open_facts ag sbm st uri t hsplit.1 with ⟨h2, hc, ha⟩ | ⟨e, h2⟩ | h2 <;>
        rcases hstep : step ag sbm st (Event.OpenConnection uri t) with ⟨st', out⟩ <;>
        rw [hstep] at hcontra h2 <;> simp only at h2 <;> subst h2 <;>
        simp only at hcontra
      · rw [hstep] at ha hc
        simp only at ha hc
        have h' : scriptOk st'.addr.isSome st'.conn.isSome rest = true := by
          rw [ha, hc]
          exact hsplit.2
        exact ih st' h' m hm hcontra
      · simp at hcontra
      · simp at hcontra
    | Await100 t =>
      have hsplit : st.conn.isSome = true
          ∧ scriptOk st.addr.isSome st.conn.isSome rest = true := by
        have h0 : (st.conn.isSome && scriptOk st.addr.isSome st.conn.isSome rest) = true := by
          simpa [scriptOk] using h
        simpa [Bool.and_eq_true] using h0
      have hrest : scriptOk st.addr.isSome true rest = true := by
        have h1 := hsplit.2
        rw [hsplit.1] at h1
        exact h1
      rcases step_await100_facts ag sbm st t hsplit.1 with ⟨h2, hc, ha⟩ | ⟨e, h2⟩ | h2 <;>
        rcases hstep : step ag sbm st (Event.Await100 t) with ⟨st', out⟩ <;>
        rw [hstep] at hcontra h2 <;> simp only at h2 <;> subst h2 <;>
        simp only at hcontra
      · rw [hstep] at ha hc
        simp only at ha hc
        have h' : scriptOk st'.addr.isSome st'.conn.isSome rest = true := by
          rw [ha, hc]
          exact hrest
        exact ih st' h' m hm hcontra
      · simp at hcontra
      · simp at hcontra
    | Transmit a t =>
      have hsplit : st.conn.isSome = true
          ∧ scriptOk st.addr.isSome st.conn.isSome rest = true := by
        have h0 : (st.conn.isSome && scriptOk st.addr.isSome st.conn.isSome rest) = true := by
          simpa [scriptOk] using h
        simpa [Bool.and_eq_true] using h0
      have hrest : scriptOk st.addr.isSome true rest = true := by
        have h1 := hsplit.2
        rw [hsplit.1] at h1
        exact h1
      rcases step_transmit_facts ag sbm st a t hsplit.1 with ⟨h2, hc, ha⟩ | ⟨e, h2⟩ <;>
        rcases hstep : step ag sbm st (Event.Transmit a t) with ⟨st', out⟩ <;>
        rw [hstep] at hcontra h2 <;> simp only at h2 <;> subst h2 <;>
        simp only at hcontra
      · rw [hstep] at ha hc
        simp only at ha hc
        have h' : scriptOk st'.addr.isSome st'.conn.isSome rest = true := by
          rw [ha, hc]
          exact hrest
        exact ih st' h' m hm hcontra
      · simp at hcontra
    | AwaitInput t =>
      have hsplit : st.conn.isSome = true
          ∧ scriptOk st.addr.isSome st.conn.isSome rest = true := by
        have h0 : (st.conn.isSome && scriptOk st.addr.isSome st.conn.isSome rest) = true := by
          simpa [scriptOk] using h
        simpa [Bool.and_eq_true] using h0
      have hrest : scriptOk st.addr.isSome true rest = true := by
        have h1 := hsplit.2
        rw [hsplit.1] at h1
        exact h1
      rcases step_awaitinput_facts ag sbm st t hsplit.1 with ⟨h2, hc, ha⟩ | ⟨e, h2⟩ | h2 <;>
        rcases hstep : step ag sbm st (Event.AwaitInput t) with ⟨st', out⟩ <;>
        rw [hstep] at hcontra h2 <;> simp only at h2 <;> subst h2 <;>
        simp only at hcontra
      · rw [hstep] at ha hc
        simp only at ha hc
        have h' : scriptOk st'.addr.isSome st'.conn.isSome rest = true := by
          rw [ha, hc]
          exact hrest
        exact ih st' h' m hm hcontra
      · simp at hcontra
      · simp at hcontra
    | Response r e =>
      obtain ⟨h2, ha, hc⟩ := step_response_facts ag sbm st r e
      rcases hstep : step ag sbm st (Event.Response r e) with ⟨st', out⟩
      rw [hstep] at hcontra h2 ha hc
      simp only at h2 ha hc
      rcases h2 with h2 | h2 <;> subst h2 <;> simp only at hcontra
      · have h' : scriptOk st'.addr.isSome st'.conn.isSome rest = true := by
          rw [ha, hc]
          simpa [scriptOk] using h
        exact ih st' h' m hm hcontra
      · simp at hcontra
    | ResponseBody =>
      rw [step_responsebody_facts] at hcontra
      simp only at hcontra
      have h' : scriptOk st.addr.isSome st.conn.isSome rest = true := by
        simpa [scriptOk] using h
      exact ih st h' m hm hcontra

/-- C8: under the spec's sequencing invariant (address resolved before
`OpenConnection`, connection held before `Await100`/`Transmit`/`AwaitInput`),
no reachable loop iteration fires one of the three `.expect`s of the loop
body, and before any connection exists the per-iteration buffer view is the
`NoBuffers` placeholder, never an absent value. -/
theorem expect_safety_spec (ag : Agent) (sbm : Option BodyMode) :
    (∀ script st, scriptOk st.addr.isSome st.conn.isSome script = true →
      ∀ m, m = "addr to be available after Event::Resolve"
          ∨ m = "connection for AwaitInput" ∨ m = "connection for Transmit" →
      (loopRun ag sbm script st).2 ≠ LoopOut.halted (Outcome.panicked m))
    ∧ (∀ st : EngineSt, st.conn = none → buffersOf st.conn = Buffers.noBuffers) := by
  refine ⟨fun script st h m hm => loopRun_no_panic ag sbm script st h m hm,
    fun st hc => by rw [hc]; rfl⟩

/-- C8 witness: a well-sequenced full exchange script is accepted by the
invariant and its run does not end in the `Transmit` expect panic; the
initial state's buffer view is the placeholder. -/
theorem expect_safety_spec_witness :
    (scriptOk (initSt [0] [none] [PoolStep.conn connW]).addr.isSome
        (initSt [0] [none] [PoolStep.conn connW]).conn.isSome
        [Event.Reset false, Event.Prepare uriW, Event.Resolve uriW 0,
          Event.OpenConnection uriW 0, Event.Transmit 5 0, Event.AwaitInput 0,
          Event.Response ⟨200, []⟩ true] = true)
    ∧ (loopRun (mkAgent false false "" false "") none
        [Event.Reset false, Event.Prepare uriW, Event.Resolve uriW 0,
          Event.OpenConnection uriW 0, Event.Transmit 5 0, Event.AwaitInput 0,
          Event.Response ⟨200, []⟩ true]
        (initSt [0] [none] [PoolStep.conn connW])).2
      ≠ LoopOut.halted (Outcome.panicked "connection for Transmit")
    ∧ buffersOf (initSt [0] [none] [PoolStep.conn connW]).conn = Buffers.noBuffers := by
  refine ⟨by decide, ?_, ?_⟩
  · exact (expect_safety_spec (mkAgent false false "" false "") none).1 _ _ (by decide)
      "connection for Transmit" (Or.inr (Or.inr rfl))
  · exact (expect_safety_spec (mkAgent false false "" false "") none).2 _ rfl

@[simp] theorem isFramingHeader_begin : isFramingHeader Input.Begin = false := rfl

@[simp] theorem isFramingHeader_prepared : isFramingHeader Input.Prepared = false := rfl

@[simp] theorem isFramingHeader_resolved : isFramingHeader Input.Resolved = false := rfl

@[simp] theorem isFramingHeader_connopen : isFramingHeader Input.ConnectionOpen = false := rfl

@[simp] theorem isFramingHeader_data (bs : List Nat) :
    isFramingHeader (Input.Data bs) = false := rfl

@[simp] theorem isFramingHeader_end100 : isFramingHeader Input.EndAwait100 = false := rfl

@[simp] theorem isFramingHeader_cookie (v : String) :
    isFramingHeader (Input.Header "cookie" v) = false := rfl

@[simp] theorem isFramingHeader_ae (v : String) :
    isFramingHeader (Input.Header "accept-encoding" v) = false := rfl

@[simp] theorem isFramingHeader_ua (v : String) :
    isFramingHeader (Input.Header "user-agent" v) = false := rfl

/-- Every input one step adds to the log either is not a framing header or
is exactly the framing header dictated by `send_body_mode`. -/
theorem step_fed_mem (ag : Agent) (sbm : Option BodyMode) (st : EngineSt) (ev : Event)
    (i : Input) (h : i ∈ (step ag sbm st ev).1.unit.fed) :
    i ∈ st.unit.fed
    ∨ isFramingHeader i = false
    ∨ (∃ n, sbm = some (BodyMode.LengthDelimited n)
        ∧ i = Input.Header "content-length" (Nat.repr n))
    ∨ (sbm = some BodyMode.Chunked ∧ i = Input.Header "transfer-encoding" "chunked") := by
  cases ev with
  | Reset mc =>
    have hf : (step ag sbm st (Event.Reset mc)).1.unit.fed = Input.Begin :: st.unit.fed := by
      cases hcn : st.conn <;> cases mc <;> simp [step, hcn]
    rw [hf] at h
    rcases List.mem_cons.mp h with rfl | h2
    · exact Or.inr (Or.inl rfl)
    · exact Or.inl h2
  | Prepare uri =>
    revert h
    simp only [step]
    split
    · exact fun h => Or.inl h
    · split
      · exact fun h => Or.inl h
      · rename_i st1 heq
        intro h
        have hst1 : i ∈ st1.unit.fed → i ∈ st.unit.fed ∨ isFramingHeader i = false := by
          intro h1
          split_ifs at heq
          · cases heq
            exact Or.inl h1
          · cases heq
            rcases List.mem_cons.mp (by simpa [set_header, Unit.handleInput] using h1)
              with rfl | h2
            · exact Or.inr rfl
            · exact Or.inl h2
          · cases heq
            exact Or.inl h1
        rcases prepareFinish_fed_mem ag sbm st1 i h with
          h1 | h1 | ⟨v, h1⟩ | ⟨n, hn, h1⟩ | ⟨hn, h1⟩ | ⟨v, h1⟩
        · rcases hst1 h1 with h2 | h2
          · exact Or.inl h2
          · exact Or.inr (Or.inl h2)
        · exact Or.inr (Or.inl (by rw [h1]; rfl))
        · exact Or.inr (Or.inl (by rw [h1]; rfl))
        · exact Or.inr (Or.inr (Or.inl ⟨n, hn, h1⟩))
        · exact Or.inr (Or.inr (Or.inr ⟨hn, h1⟩))
        · exact Or.inr (Or.inl (by rw [h1]; rfl))
  | Resolve uri t =>
    revert h
    simp only [step]
    split
    · exact fun h => Or.inl h
    · split
      · exact fun h => Or.inl h
      · intro h
        rcases List.mem_cons.mp (by simpa using h) with rfl | h2
        · exact Or.inr (Or.inl rfl)
        · exact Or.inl h2
  | OpenConnection uri t =>
    revert h
    simp only [step]
    split
    · exact fun h => Or.inl h
    · split
      · exact fun h => Or.inl h
      · exact fun h => Or.inl h
      · intro h
        rcases List.mem_cons.mp (by simpa using h) with rfl | h2
        · exact Or.inr (Or.inl rfl)
        · exact Or.inl h2
  | Await100 t =>
    revert h
    simp only [step]
    split
    · exact fun h => Or.inl h
    · split
      · exact fun h => Or.inl h
      · intro h
        rcases List.mem_cons.mp (by simpa using h) with rfl | h2
        · exact Or.inr (Or.inl rfl)
        · exact Or.inl h2
      · split
        · intro h
          rcases List.mem_cons.mp (by simpa using h) with rfl | h2
          · exact Or.inr (Or.inl rfl)
          · exact Or.inl h2
        · exact fun h => Or.inl h
  | Transmit a t =>
    revert h
    simp only [step]
    (repeat' split) <;> exact fun h => Or.inl h
  | AwaitInput t =>
    revert h
    simp only [step]
    split
    · exact fun h => Or.inl h
    · split
      · exact fun h => Or.inl h
      · exact fun h => Or.inl h
      · intro h
        rcases List.mem_cons.mp (by simpa [Unit.handleInput] using h) with rfl | h2
        · exact Or.inr (Or.inl rfl)
        · exact Or.inl h2
  | Response r e =>
    revert h
    simp only [step]
    (repeat' split) <;> exact fun h => Or.inl h
  | ResponseBody => exact Or.inl h

/-- Loop-level closure of `step_fed_mem`. -/
theorem loopRun_fed_mem (ag : Agent) (sbm : Option BodyMode) :
    ∀ script st i, i ∈ ((loopRun ag sbm script st).1).unit.fed →
      i ∈ st.unit.fed
      ∨ isFramingHeader i = false
      ∨ (∃ n, sbm = some (BodyMode.LengthDelimited n)
          ∧ i = Input.Header "content-length" (Nat.repr n))
      ∨ (sbm = some BodyMode.Chunked ∧ i = Input.Header "transfer-encoding" "chunked") := by
  intro script
  induction script with
  | nil =>
    intro st i h
    exact Or.inl (by simpa [loopRun] using h)
  | cons ev rest ih =>
    intro st i h
    simp only [loopRun] at h
    rcases hstep : step ag sbm st ev with ⟨st', out⟩
    rw [hstep] at h
    have hmem : i ∈ st'.unit.fed → i ∈ st.unit.fed ∨ isFramingHeader i = false
        ∨ (∃ n, sbm = some (BodyMode.LengthDelimited n)
            ∧ i = Input.Header "content-length" (Nat.repr n))
        ∨ (sbm = some BodyMode.Chunked ∧ i = Input.Header "transfer-encoding" "chunked") := by
      intro h1
      exact step_fed_mem ag sbm st ev i (by rw [hstep]; exact h1)
    cases out with
    | next =>
      simp only at h
      rcases ih st' i h with h1 | h1 | h1 | h1
      · exact hmem h1
      · exact Or.inr (Or.inl h1)
      · exact Or.inr (Or.inr (Or.inl h1))
      · exact Or.inr (Or.inr (Or.inr h1))
    | brk => exact hmem (by simpa using h)
    | halt o => exact hmem (by simpa using h)

/-- The final engine state of `do_run` is the final state of its loop. -/
theorem do_run_snd (ag : Agent) (req : Request) (bm : BodyMode) (du : List Nat)
    (bms : List (Option BodyMode)) (pool : List PoolStep) (script : List Event) :
    (do_run ag req bm du bms pool script).2
      = (loopRun ag (sbmOf req bm) script (initSt du bms pool)).1 := by
  simp only [do_run]
  rcases h : loopRun ag (sbmOf req bm) script (initSt du bms pool) with ⟨st, lo⟩
  cases lo <;> simp

/-- When the https-only check and the cookie step pass, `Prepare` reaches the
header-injection continuation. -/
theorem prepare_reaches_finish (ag : Agent) (sbm : Option BodyMode) (st : EngineSt) (uri : Uri)
    (hh : ¬ (ag.config.https_only = true ∧ uri.scheme ≠ some Scheme.HTTPS))
    (hcook : ag.cookiesEnabled = false ∨ ag.getRequestCookies uri = ""
      ∨ isValidHeaderValue (ag.getRequestCookies uri) = true) :
    ∃ st1, step ag sbm st (Event.Prepare uri) = prepareFinish ag sbm st1 := by
  by_cases hen : ag.cookiesEnabled
  · by_cases hv : ag.getRequestCookies uri = ""
    · exact ⟨st, by simp [step, hh, hen, hv]⟩
    · have hval : isValidHeaderValue (ag.getRequestCookies uri) = true := by
        rcases hcook with h | h | h
        · rw [hen] at h; cases h
        · exact absurd h hv
        · exact h
      exact ⟨set_header st "cookie" (ag.getRequestCookies uri),
        by simp [step, hh, hen, hv, hval]⟩
  · exact ⟨st, by simp [step, hh, hen]⟩

/-- C9: the body-framing decision is taken once before the loop from the
original request: if the request already carries a framing header
(`has_send_body_mode`), no `Prepare` of the whole call ever injects
`content-length` or `transfer-encoding`; otherwise each `Prepare` injects
`content-length` with the body's length for a length-delimited body,
`transfer-encoding: chunked` for a chunked body, and no framing header for
the other body modes. -/
theorem send_body_mode_spec (ag : Agent) :
    (∀ req bm du bms pool script i,
        has_send_body_mode req.headers = true →
        i ∈ ((do_run ag req bm du bms pool script).2).unit.fed →
        isFramingHeader i = false)
    ∧ (∀ st uri n,
        ¬ (ag.config.https_only = true ∧ uri.scheme ≠ some Scheme.HTTPS) →
        (ag.cookiesEnabled = false ∨ ag.getRequestCookies uri = ""
          ∨ isValidHeaderValue (ag.getRequestCookies uri) = true) →
        Input.Header "content-length" (Nat.repr n)
          ∈ (step ag (some (BodyMode.LengthDelimited n)) st (Event.Prepare uri)).1.unit.fed)
    ∧ (∀ st uri,
        ¬ (ag.config.https_only = true ∧ uri.scheme ≠ some Scheme.HTTPS) →
        (ag.cookiesEnabled = false ∨ ag.getRequestCookies uri = ""
          ∨ isValidHeaderValue (ag.getRequestCookies uri) = true) →
        Input.Header "transfer-encoding" "chunked"
          ∈ (step ag (some BodyMode.Chunked) st (Event.Prepare uri)).1.unit.fed)
    ∧ (∀ st uri (mode : BodyMode) i,
        mode = BodyMode.NoBody ∨ mode = BodyMode.CloseDelimited →
        i ∈ (step ag (some mode) st (Event.Prepare uri)).1.unit.fed →
        i ∈ st.unit.fed ∨ isFramingHeader i = false) := by
  refine ⟨fun req bm du bms pool script i hsend hi => ?_,
    fun st uri n hh hcook => ?_, fun st uri hh hcook => ?_,
    fun st uri mode i hmode hi => ?_⟩
  · rw [do_run_snd] at hi
    have hsbm : sbmOf req bm = none := by simp [sbmOf, hsend]
    rw [hsbm] at hi
    rcases loopRun_fed_mem ag none script (initSt du bms pool) i hi with
      h | h | ⟨n, hn, _⟩ | ⟨hn, _⟩
    · cases h
    · exact h
    · cases hn
    · cases hn
  · rcases prepare_reaches_finish ag (some (BodyMode.LengthDelimited n)) st uri hh hcook
      with ⟨st1, hstep⟩
    rw [hstep]
    exact prepareFinish_cl ag n st1
  · rcases prepare_reaches_finish ag (some BodyMode.Chunked) st uri hh hcook
      with ⟨st1, hstep⟩
    rw [hstep]
    exact prepareFinish_te ag st1
  · rcases step_fed_mem ag (some mode) st (Event.Prepare uri) i hi with
      h | h | ⟨n, hn, _⟩ | ⟨hn, _⟩
    · exact Or.inl h
    · exact Or.inr h
    · rcases hmode with rfl | rfl <;> cases Option.some.inj hn
    · rcases hmode with rfl | rfl <;> cases Option.some.inj hn

/-- C9 witness: a request already carrying `content-length` runs a `Reset`
hop and the lone logged input is not a framing header; and a chunked body's
`Prepare` injects `transfer-encoding: chunked`. -/
theorem send_body_mode_spec_witness :
    has_send_body_mode [("content-length", "3")] = true
    ∧ Input.Begin
        ∈ ((do_run (mkAgent false false "" false "") ⟨[("content-length", "3")]⟩
            BodyMode.Chunked [] [] [] [Event.Reset false]).2).unit.fed
    ∧ isFramingHeader Input.Begin = false
    ∧ Input.Header "transfer-encoding" "chunked"
        ∈ (step (mkAgent false false "" false "") (some BodyMode.Chunked) stW
            (Event.Prepare uriW)).1.unit.fed := by
  refine ⟨by decide, by decide, ?_, ?_⟩
  · exact (send_body_mode_spec (mkAgent false false "" false "")).1
      ⟨[("content-length", "3")]⟩ BodyMode.Chunked [] [] [] [Event.Reset false]
      Input.Begin (by decide) (by decide)
  · exact (send_body_mode_spec (mkAgent false false "" false "")).2.2.1 stW uriW
      (by decide) (Or.inl rfl)

end Ureq
